import Mathlib

/-!
Verification development for the CRAM record-decoding core of this repository.

The definitions below are a shallow embedding of the Rust sources:

* `container/compression_header/encoding/codec/integer.rs` — the `Integer`
  entropy codec (`Integer.decode`);
* `io/reader/container/slice/records.rs` — the record-reconstruction engine
  (`read_record` and its per-series readers).

Modelling conventions:

* machine integers are `Nat`/`Int`; `u8`/`u16`/`usize`/`i32` conversions are
  explicit (`u8TryFrom`, …); the 32-bit reinterpretation used by the bit
  cursor and ITF8 is `i32OfNat` (reduction mod `2 ^ 32`);
* fallible code returns `Except DecodeError`; stateful readers take and
  return their state explicitly, in the shape `σ → Except DecodeError α × σ`,
  so the engine state after a failed call is observable (mirroring `&mut`
  receivers in Rust).  A failing primitive read returns its input state;
  decode errors are terminal per slice, so the stream position after a
  failure is never consulted;
* byte slices borrowed from the external-data reservoirs become `List Nat`
  values (eager copies).

Components of the repository that the engine consumes but whose sources are
not part of this tree (the bit cursor, the external-reader table, ITF8, the
canonical Huffman decoder, the byte and byte-array codecs, `Position`, the
flag types, the feature-code table, the tag-value reader) are modelled from
the specification; each such definition carries a doc comment starting with
`Modelled from the spec:`.
-/

namespace NoodlesCram

/-- A tag dictionary key: the two tag characters and the declared type byte
(`preservation_map::tag_sets::Key`). -/
structure TagKey where
  t1 : Nat
  t2 : Nat
  ty : Nat
  deriving DecidableEq, Repr

/-- The named data series of `DataSeriesEncodings`
(`compression_header::data_series_encodings::DataSeries`). -/
inductive DataSeries where
  | bamFlags
  | cramFlags
  | referenceSequenceIds
  | readLengths
  | alignmentStarts
  | readGroupIds
  | names
  | mateFlags
  | mateReferenceSequenceIds
  | mateAlignmentStarts
  | templateLengths
  | mateDistances
  | tagSetIds
  | featureCounts
  | featureCodes
  | featurePositionDeltas
  | stretchesOfBases
  | stretchesOfQualityScores
  | bases
  | qualityScores
  | baseSubstitutionCodes
  | insertionBases
  | deletionLengths
  | referenceSkipLengths
  | softClipBases
  | paddingLengths
  | hardClipLengths
  | mappingQualities
  deriving DecidableEq, Repr

/-- Decode failures.  `missingDataSeriesEncoding` and `missingTagEncoding`
mirror `ReadRecordError`; the rest mirror the `io::Error` values raised by
the engine and codecs (`InvalidData` payloads, EOF, a missing external
block, a missing tag set, and the `todo!` arms of `Integer::decode`). -/
inductive DecodeError where
  | missingDataSeriesEncoding (ds : DataSeries)
  | missingTagEncoding (key : TagKey)
  | missingExternalBlock (id : Int)
  | missingTagSet
  | unexpectedEof
  | invalidData
  | notImplemented
  deriving DecidableEq, Repr

/-- Reinterpret the low 32 bits of a natural number as a two's-complement
`i32`. -/
def i32OfNat (n : Nat) : Int :=
  if n % 2 ^ 32 < 2 ^ 31 then ((n % 2 ^ 32 : Nat) : Int)
  else ((n % 2 ^ 32 : Nat) : Int) - 2 ^ 32

/-- Reinterpret an integer's low 32 bits as a two's-complement `i32`: the
value an `i32` operation produces when it wraps (release profile; a debug
build panics at the same point). -/
def i32Wrap (n : Int) : Int :=
  if n % 2 ^ 32 < 2 ^ 31 then n % 2 ^ 32 else n % 2 ^ 32 - 2 ^ 32

/-- `1i32 << n`: the shift amount is reduced mod 32 (release-profile masked
shift; a debug build panics for `n ≥ 32`) and the result wraps —
`1i32 << 31` is `-2^31`. -/
def i32Shl1 (n : Nat) : Int := i32Wrap ((2 : Int) ^ (n % 32))

/-- `i32` addition with its overflow surfaced as a decode error.  Used where
the engine adds two `i32` values and immediately narrows the sum with
`usize::try_from`: on overflow a debug build panics while a release build
wraps to a negative value that the narrowing then rejects — either way the
record decode fails, modelled as `invalidData`. -/
def i32CheckedAdd (a b : Int) : Except DecodeError Int :=
  if -2147483648 ≤ a + b ∧ a + b < 2147483648 then .ok (a + b)
  else .error .invalidData

/-- Modelled from the spec: the bit cursor reads most-significant bit first
within each byte; this order is pinned by the §8 test vectors compiled into
`integer.rs` (`Beta{offset:1,len:3}` on `0b10000000` decodes to 3). -/
def bitsOfByte (b : Nat) : List Bool :=
  [b.testBit 7, b.testBit 6, b.testBit 5, b.testBit 4,
   b.testBit 3, b.testBit 2, b.testBit 1, b.testBit 0]

/-- A core byte buffer as a bit stream. -/
def bitsOfBytes (bs : List Nat) : List Bool :=
  bs.flatMap bitsOfByte

/-- Modelled from the spec: `BitReader::read_bit` — one bit off the front of
the core stream, `UnexpectedEof` when exhausted. -/
def read_bit (core : List Bool) : Except DecodeError (Bool × List Bool) :=
  match core with
  | [] => .error .unexpectedEof
  | b :: rest => .ok (b, rest)

/-- Read `n` bits into an accumulator, most significant first. -/
def readBitsAcc : Nat → Nat → List Bool → Except DecodeError (Nat × List Bool)
  | 0, acc, core => .ok (acc, core)
  | n + 1, acc, core =>
    match core with
    | [] => .error .unexpectedEof
    | b :: rest => readBitsAcc n (2 * acc + (if b then 1 else 0)) rest

/-- Modelled from the spec: `BitReader::read_i32(len)` — `len` bits read as an
unsigned value into a 32-bit register. -/
def read_i32 (len : Nat) (core : List Bool) : Except DecodeError (Int × List Bool) :=
  (readBitsAcc len 0 core).map fun p => (i32OfNat p.1, p.2)

/-- The run of zero-bits at the front of the core stream, consuming the
terminating one-bit: the loop `while read_bit()? == 0 { n += 1 }` of the
Gamma arm of `Integer::decode`. -/
def readZeroRun : List Bool → Except DecodeError (Nat × List Bool)
  | [] => .error .unexpectedEof
  | b :: rest =>
    if b then .ok (0, rest)
    else (readZeroRun rest).map fun p => (p.1 + 1, p.2)

/-- Modelled from the spec: the external-reader table — content id to the
remaining bytes of that block's stream. -/
abbrev ExternalDataReaders := List (Int × List Nat)

/-- Look up the stream for a content id. -/
def extGet (id : Int) : ExternalDataReaders → Option (List Nat)
  | [] => none
  | (i, v) :: rest => if i = id then some v else extGet id rest

/-- Store back the remaining bytes for a content id. -/
def extSet (id : Int) (v : List Nat) : ExternalDataReaders → ExternalDataReaders
  | [] => []
  | (i, w) :: rest => if i = id then (i, v) :: rest else (i, w) :: extSet id v rest

/-- Modelled from the spec: one byte off the front of an external stream. -/
def read_u8 (src : List Nat) : Except DecodeError (Nat × List Nat) :=
  match src with
  | [] => .error .unexpectedEof
  | b :: rest => .ok (b, rest)

/-- Modelled from the spec: `read_itf8` (`io/reader/num`, absent from this
tree) — the CRAM ITF8 variable-length 32-bit integer: the count of leading
one-bits of the first byte gives the number of continuation bytes, and the
assembled value is reinterpreted as an `i32`. -/
def read_itf8 (src : List Nat) : Except DecodeError (Int × List Nat) :=
  match src with
  | [] => .error .unexpectedEof
  | b0 :: r0 =>
    if b0 < 0x80 then .ok (i32OfNat b0, r0)
    else if b0 < 0xc0 then
      match r0 with
      | b1 :: r1 => .ok (i32OfNat (((b0 &&& 0x7f) <<< 8) ||| b1), r1)
      | [] => .error .unexpectedEof
    else if b0 < 0xe0 then
      match r0 with
      | b1 :: b2 :: r2 =>
        .ok (i32OfNat (((b0 &&& 0x3f) <<< 16) ||| (b1 <<< 8) ||| b2), r2)
      | _ => .error .unexpectedEof
    else if b0 < 0xf0 then
      match r0 with
      | b1 :: b2 :: b3 :: r3 =>
        .ok (i32OfNat (((b0 &&& 0x1f) <<< 24) ||| (b1 <<< 16) ||| (b2 <<< 8) ||| b3), r3)
      | _ => .error .unexpectedEof
    else
      match r0 with
      | b1 :: b2 :: b3 :: b4 :: r4 =>
        .ok
          (i32OfNat
            (((b0 &&& 0x0f) <<< 28) ||| (b1 <<< 20) ||| (b2 <<< 12) ||| (b3 <<< 4) |||
              (b4 &&& 0x0f)),
            r4)
      | _ => .error .unexpectedEof

/-- The pair of cursors a codec decodes against: the core bit stream and the
external-reader table. -/
structure StreamState where
  core : List Bool
  ext : ExternalDataReaders
  deriving DecidableEq, Repr

/-- Sequencing for state-passing decoders: the state sticks on failure. -/
def dbind {σ α β : Type} (x : Except DecodeError α × σ)
    (f : α → σ → Except DecodeError β × σ) : Except DecodeError β × σ :=
  match x with
  | (.ok v, s) => f v s
  | (.error e, s) => (.error e, s)

/-- Run a core-stream primitive inside a `StreamState`. -/
def onCore {α : Type} (f : List Bool → Except DecodeError (α × List Bool))
    (st : StreamState) : Except DecodeError α × StreamState :=
  match f st.core with
  | .ok (v, core) => (.ok v, { st with core := core })
  | .error e => (.error e, st)

/-- Run an external-stream primitive against the block for `id`, failing with
`missingExternalBlock` when the table has no entry for it. -/
def onExt {α : Type} (id : Int) (f : List Nat → Except DecodeError (α × List Nat))
    (st : StreamState) : Except DecodeError α × StreamState :=
  match extGet id st.ext with
  | none => (.error (.missingExternalBlock id), st)
  | some src =>
    match f src with
    | .ok (v, rest) => (.ok v, { st with ext := extSet id rest st.ext })
    | .error e => (.error e, st)

/-- Modelled from the spec: insertion step for the canonical (length, symbol)
order of the Huffman table builder. -/
def insertLenSym {α : Type} [LinearOrder α] (p : α × Nat) :
    List (α × Nat) → List (α × Nat)
  | [] => [p]
  | q :: rest =>
    if p.2 < q.2 ∨ (p.2 = q.2 ∧ p.1 ≤ q.1) then p :: q :: rest
    else q :: insertLenSym p rest

/-- Modelled from the spec: sort (symbol, bit-length) pairs by length, ties by
symbol. -/
def sortLenSym {α : Type} [LinearOrder α] : List (α × Nat) → List (α × Nat)
  | [] => []
  | p :: rest => insertLenSym p (sortLenSym rest)

/-- Modelled from the spec: assign canonical codes in sorted order — each code
is the previous one plus one, shifted left by the growth in length. -/
def assignCodes {α : Type} : List (α × Nat) → Nat → Nat → List (α × Nat × Nat)
  | [], _, _ => []
  | (sym, len) :: rest, prevLen, code =>
    let c := code <<< (len - prevLen)
    (sym, len, c) :: assignCodes rest len (c + 1)

/-- Modelled from the spec: the code table of `CanonicalHuffmanDecoder::new`
(source file absent from this tree) — (symbol, length, code) triples in
canonical order. -/
def canonicalCodes {α : Type} [LinearOrder α] (alphabet : List α)
    (bitLens : List Nat) : List (α × Nat × Nat) :=
  assignCodes (sortLenSym (alphabet.zip bitLens)) 0 0

/-- Modelled from the spec: `CanonicalHuffmanDecoder::decode` — consume bits
one at a time, extending the candidate code, until it matches a table entry
of that exact length. -/
def huffmanDecodeLoop {α : Type} (codes : List (α × Nat × Nat)) :
    List Bool → Nat → Nat → Except DecodeError (α × List Bool)
  | [], _, _ => .error .unexpectedEof
  | b :: rest, len, val =>
    let val := 2 * val + (if b then 1 else 0)
    let len := len + 1
    match codes.find? (fun c => c.2.1 == len && c.2.2 == val) with
    | some c => .ok (c.1, rest)
    | none => huffmanDecodeLoop codes rest len val

/-- The `Integer` codec variants (`encoding/codec/integer.rs`). -/
inductive Integer where
  | external (blockContentId : Int)
  | golomb (offset m : Int)
  | huffman (alphabet : List Int) (bitLens : List Nat)
  | beta (offset : Int) (len : Nat)
  | subexp (offset k : Int)
  | golombRice (offset log2m : Int)
  | gamma (offset : Int)
  deriving DecidableEq, Repr

/-- `Integer::decode` (`encoding/codec/integer.rs`): External reads one ITF8
value from the block for its content id; a singleton Huffman alphabet yields
its symbol without touching the streams; Beta reads `len` bits and subtracts
the offset (`i32` subtraction, so it wraps where a debug build would
panic); Gamma reads a run of zero-bits terminated by a one-bit, that many
further bits as `m`, and yields `(1 <<< n) + m - offset` — all of it `i32`
arithmetic, so the shift and the two operations wrap (`1i32 << 31` is
`-2^31`); the remaining variants are the `todo!` arms, modelled as the
`notImplemented` error. -/
def Integer.decode : Integer → StreamState → Except DecodeError Int × StreamState
  | .external id, st => onExt id read_itf8 st
  | .huffman alphabet bitLens, st =>
    match alphabet with
    | [s] => (.ok s, st)
    | _ =>
      onCore (fun core => huffmanDecodeLoop (canonicalCodes alphabet bitLens) core 0 0) st
  | .beta offset len, st =>
    onCore (fun core => (read_i32 len core).map fun p => (i32Wrap (p.1 - offset), p.2)) st
  | .gamma offset, st =>
    onCore
      (fun core =>
        match readZeroRun core with
        | .error e => .error e
        | .ok (n, c1) =>
          match read_i32 n c1 with
          | .error e => .error e
          | .ok (m, c2) => .ok (i32Wrap (i32Wrap (i32Shl1 n + m) - offset), c2))
      st
  | .golomb _ _, st => (.error .notImplemented, st)
  | .subexp _ _, st => (.error .notImplemented, st)
  | .golombRice _ _, st => (.error .notImplemented, st)

/-- Modelled from the spec: the `Byte` codec (`codec/byte.rs`, absent from
this tree) — `external` reads one raw byte from the block for its content id;
`huffman` decodes one byte symbol canonically, a singleton alphabet
consuming zero bits. -/
inductive ByteCodec where
  | external (blockContentId : Int)
  | huffman (alphabet : List Nat) (bitLens : List Nat)
  deriving DecidableEq, Repr

/-- Single-value decode of the Byte codec. -/
def ByteCodec.decode : ByteCodec → StreamState → Except DecodeError Nat × StreamState
  | .external id, st => onExt id read_u8 st
  | .huffman alphabet bitLens, st =>
    match alphabet with
    | [s] => (.ok s, st)
    | _ =>
      onCore (fun core => huffmanDecodeLoop (canonicalCodes alphabet bitLens) core 0 0) st

/-- Split `n` bytes off the front of a stream, `UnexpectedEof` when fewer
remain. -/
def takeBytes (n : Nat) (src : List Nat) : Except DecodeError (List Nat × List Nat) :=
  if n ≤ src.length then .ok (src.take n, src.drop n) else .error .unexpectedEof

/-- Decode `n` single byte values in sequence. -/
def ByteCodec.decodeRepeat (c : ByteCodec) :
    Nat → StreamState → Except DecodeError (List Nat) × StreamState
  | 0, st => (.ok [], st)
  | n + 1, st =>
    dbind (c.decode st) fun b st =>
      dbind (ByteCodec.decodeRepeat c n st) fun bs st => (.ok (b :: bs), st)

/-- Modelled from the spec: `decode_take` of the Byte codec — a run of `len`
bytes: an external encoding takes the run directly from its block, any other
decodes `len` symbols in sequence. -/
def ByteCodec.decode_take (c : ByteCodec) (st : StreamState) (len : Nat) :
    Except DecodeError (List Nat) × StreamState :=
  match c with
  | .external id => onExt id (takeBytes len) st
  | .huffman a b => ByteCodec.decodeRepeat (.huffman a b) len st

/-- Read bytes up to (and consuming) a stop byte, which is excluded from the
value. -/
def splitAtStop (stop : Nat) : List Nat → Except DecodeError (List Nat × List Nat)
  | [] => .error .unexpectedEof
  | b :: rest =>
    if b = stop then .ok ([], rest)
    else (splitAtStop stop rest).map fun p => (b :: p.1, p.2)

/-- Modelled from the spec: the `ByteArray` codec (`codec/byte_array.rs`,
absent from this tree) — `byteArrayLen` decodes a length with an Integer
encoding then that many bytes with a Byte encoding; `byteArrayStop` reads
bytes from the block for its content id up to a stop byte. -/
inductive ByteArrayCodec where
  | byteArrayLen (lenEncoding : Integer) (valueEncoding : ByteCodec)
  | byteArrayStop (stopByte : Nat) (blockContentId : Int)
  deriving DecidableEq, Repr

/-- Decode one byte string with the ByteArray codec. -/
def ByteArrayCodec.decode :
    ByteArrayCodec → StreamState → Except DecodeError (List Nat) × StreamState
  | .byteArrayLen lenc venc, st =>
    dbind (lenc.decode st) fun n st =>
      if n < 0 then (.error .invalidData, st)
      else venc.decode_take st n.toNat
  | .byteArrayStop stop id, st => onExt id (splitAtStop stop) st

/-- The preservation map subset the engine consults: the records-have-names
and alignment-starts-are-deltas flags and the tag-set dictionary. -/
structure PreservationMap where
  recordsHaveNames : Bool
  alignmentStartsAreDeltas : Bool
  tagSets : List (List TagKey)
  deriving DecidableEq, Repr

/-- One optional encoding per data series (`DataSeriesEncodings`); the codec
kind of each field follows the value type its reader expects. -/
structure DataSeriesEncodings where
  bamFlags : Option Integer := none
  cramFlags : Option Integer := none
  referenceSequenceIds : Option Integer := none
  readLengths : Option Integer := none
  alignmentStarts : Option Integer := none
  readGroupIds : Option Integer := none
  names : Option ByteArrayCodec := none
  mateFlags : Option Integer := none
  mateReferenceSequenceIds : Option Integer := none
  mateAlignmentStarts : Option Integer := none
  templateLengths : Option Integer := none
  mateDistances : Option Integer := none
  tagSetIds : Option Integer := none
  featureCounts : Option Integer := none
  featureCodes : Option Integer := none
  featurePositionDeltas : Option Integer := none
  stretchesOfBases : Option ByteArrayCodec := none
  stretchesOfQualityScores : Option ByteArrayCodec := none
  bases : Option ByteCodec := none
  qualityScores : Option ByteCodec := none
  baseSubstitutionCodes : Option ByteCodec := none
  insertionBases : Option ByteArrayCodec := none
  deletionLengths : Option Integer := none
  referenceSkipLengths : Option Integer := none
  softClipBases : Option ByteArrayCodec := none
  paddingLengths : Option Integer := none
  hardClipLengths : Option Integer := none
  mappingQualities : Option Integer := none
  deriving DecidableEq, Repr

/-- Modelled from the spec: `block::ContentId::from(key)` packs the two tag
characters and the type byte of a tag-dictionary key. -/
def TagKey.contentId (k : TagKey) : Int :=
  (((k.t1 <<< 16) ||| (k.t2 <<< 8) ||| k.ty : Nat) : Int)

/-- Modelled from the spec: `data::read_value` (`records/data.rs`, absent
from this tree) interprets decoded bytes per the tag's declared type; the
model keeps the declared type with the raw bytes. -/
structure TagValue where
  ty : Nat
  raw : List Nat
  deriving DecidableEq, Repr

/-- See `TagValue`. -/
def read_value (src : List Nat) (ty : Nat) : Except DecodeError TagValue :=
  .ok ⟨ty, src⟩

/-- The compression header subset shared read-only by the engine. -/
structure CompressionHeader where
  preservationMap : PreservationMap
  dataSeriesEncodings : DataSeriesEncodings
  tagEncodings : List (Int × ByteArrayCodec)
  deriving DecidableEq, Repr

/-- Modelled from the spec: CRAM record flag bits (`record/flags.rs`, absent
from this tree) — quality scores stored as array, detached, mate downstream. -/
def Flags.qualityScoresStoredAsArray (f : Nat) : Bool := f.testBit 0

/-- CRAM record flag bit 0x02. -/
def Flags.isDetached (f : Nat) : Bool := f.testBit 1

/-- CRAM record flag bit 0x04. -/
def Flags.mateIsDownstream (f : Nat) : Bool := f.testBit 2

/-- Modelled from the spec: SAM flag UNMAPPED = 0x4. -/
def bamFlagsIsUnmapped (f : Nat) : Bool := f.testBit 2

/-- Modelled from the spec: CRAM mate flag bit 0x01 (mate on negative
strand). -/
def mateFlagsIsOnNegativeStrand (f : Nat) : Bool := f.testBit 0

/-- Modelled from the spec: CRAM mate flag bit 0x02 (mate unmapped). -/
def mateFlagsIsUnmapped (f : Nat) : Bool := f.testBit 1

/-- Modelled from the spec: `noodles_core::Position` is a positive `usize`;
`Position::new` yields `none` at 0.  Positions are modelled as positive
`Nat` values inside `Option`. -/
def Position.new (n : Nat) : Option Nat := if n = 0 then none else some n

/-- Modelled from the spec: `Position::try_from(usize)` fails at 0. -/
def positionTryFrom (n : Nat) : Except DecodeError Nat :=
  if n = 0 then .error .invalidData else .ok n

/-- Modelled from the spec:
`sam::alignment::record::MappingQuality::new` — 255 is the missing
sentinel. -/
def MappingQuality.new (n : Nat) : Option Nat := if n = 255 then none else some n

/-- `u16::try_from(i32)`: `InvalidData` outside `[0, 2^16)`. -/
def u16TryFrom (n : Int) : Except DecodeError Nat :=
  if 0 ≤ n ∧ n < 65536 then .ok n.toNat else .error .invalidData

/-- `u8::try_from(i32)`: `InvalidData` outside `[0, 2^8)`. -/
def u8TryFrom (n : Int) : Except DecodeError Nat :=
  if 0 ≤ n ∧ n < 256 then .ok n.toNat else .error .invalidData

/-- `usize::try_from(i32)`: `InvalidData` for negative values. -/
def usizeTryFrom (n : Int) : Except DecodeError Nat :=
  if 0 ≤ n then .ok n.toNat else .error .invalidData

/-- `i32::try_from(usize)`: `InvalidData` above `i32::MAX`. -/
def i32TryFromNat (n : Nat) : Except DecodeError Int :=
  if n ≤ 2147483647 then .ok (n : Int) else .error .invalidData

/-- The structural features of a mapped record (`record::Feature`), each
carrying its resolved 1-based position and payload. -/
inductive Feature where
  | bases (position : Nat) (bases : List Nat)
  | scores (position : Nat) (qualityScores : List Nat)
  | readBase (position : Nat) (base : Nat) (qualityScore : Nat)
  | substitution (position : Nat) (code : Nat)
  | insertion (position : Nat) (bases : List Nat)
  | deletion (position : Nat) (len : Nat)
  | insertBase (position : Nat) (base : Nat)
  | qualityScore (position : Nat) (qualityScore : Nat)
  | referenceSkip (position : Nat) (len : Nat)
  | softClip (position : Nat) (bases : List Nat)
  | padding (position : Nat) (len : Nat)
  | hardClip (position : Nat) (len : Nat)
  deriving DecidableEq, Repr

/-- The position every feature carries. -/
def Feature.position : Feature → Nat
  | .bases p _ => p
  | .scores p _ => p
  | .readBase p _ _ => p
  | .substitution p _ => p
  | .insertion p _ => p
  | .deletion p _ => p
  | .insertBase p _ => p
  | .qualityScore p _ => p
  | .referenceSkip p _ => p
  | .softClip p _ => p
  | .padding p _ => p
  | .hardClip p _ => p

/-- The feature codes (`record::feature::Code`). -/
inductive FeatureCode where
  | bases
  | scores
  | readBase
  | substitution
  | insertion
  | deletion
  | insertBase
  | qualityScore
  | referenceSkip
  | softClip
  | padding
  | hardClip
  deriving DecidableEq, Repr

/-- Modelled from the spec: `feature::Code::try_from(i32)`
(`record/feature.rs`, absent from this tree) — the CRAM feature-code
characters; any other value is `InvalidData`. -/
def featureCodeOfInt (n : Int) : Except DecodeError FeatureCode :=
  if n = 98 then .ok .bases
  else if n = 113 then .ok .scores
  else if n = 66 then .ok .readBase
  else if n = 88 then .ok .substitution
  else if n = 73 then .ok .insertion
  else if n = 68 then .ok .deletion
  else if n = 105 then .ok .insertBase
  else if n = 81 then .ok .qualityScore
  else if n = 78 then .ok .referenceSkip
  else if n = 83 then .ok .softClip
  else if n = 80 then .ok .padding
  else if n = 72 then .ok .hardClip
  else .error .invalidData

/-- The transient decoded record (`cram::Record`), with the field set the
engine writes. -/
structure Record where
  id : Nat := 0
  bamFlags : Nat := 0
  cramFlags : Nat := 0
  referenceSequenceId : Option Nat := none
  readLength : Nat := 0
  alignmentStart : Option Nat := none
  readGroupId : Option Nat := none
  name : Option (List Nat) := none
  mateFlags : Nat := 0
  mateReferenceSequenceId : Option Nat := none
  mateAlignmentStart : Option Nat := none
  templateLength : Int := 0
  mateDistance : Option Nat := none
  data : List ((Nat × Nat) × TagValue) := []
  features : List Feature := []
  mappingQuality : Option Nat := none
  sequence : List Nat := []
  qualityScores : List Nat := []
  deriving DecidableEq, Repr

/-- The reused record buffer's initial value. -/
def Record.default : Record := {}

/-- `ReferenceSequenceContext`: a fixed reference id and alignment start,
none, or per-record resolution. -/
inductive ReferenceSequenceContext where
  | some (referenceSequenceId : Nat) (alignmentStart : Nat)
  | none
  | many
  deriving DecidableEq, Repr

/-- The record-reconstruction engine state (`Records`): the shared header,
the two stream cursors, the reference-sequence context, the running id, and
the previous record's resolved alignment start. -/
structure Records where
  compressionHeader : CompressionHeader
  core : List Bool
  ext : ExternalDataReaders
  referenceSequenceContext : ReferenceSequenceContext
  id : Nat
  prevAlignmentStart : Option Nat
  deriving DecidableEq, Repr

/-- `Records::new`: a fixed reference-sequence context seeds the previous
alignment start. -/
def Records.new (ch : CompressionHeader) (core : List Bool)
    (ext : ExternalDataReaders) (ctx : ReferenceSequenceContext)
    (initialId : Nat) : Records :=
  let initialAlignmentStart :=
    match ctx with
    | .some _ start => Option.some start
    | _ => Option.none
  ⟨ch, core, ext, ctx, initialId, initialAlignmentStart⟩

/-- The shared `ok_or(MissingDataSeriesEncoding) + decode` prelude of every
Integer-series reader. -/
def decodeIntSeries (enc : Option Integer) (ds : DataSeries) (st : StreamState) :
    Except DecodeError Int × StreamState :=
  match enc with
  | Option.none => (.error (.missingDataSeriesEncoding ds), st)
  | Option.some e => e.decode st

/-- As `decodeIntSeries`, for Byte-codec series. -/
def decodeByteSeries (enc : Option ByteCodec) (ds : DataSeries) (st : StreamState) :
    Except DecodeError Nat × StreamState :=
  match enc with
  | Option.none => (.error (.missingDataSeriesEncoding ds), st)
  | Option.some e => e.decode st

/-- As `decodeIntSeries`, for ByteArray-codec series. -/
def decodeByteArraySeries (enc : Option ByteArrayCodec) (ds : DataSeries)
    (st : StreamState) : Except DecodeError (List Nat) × StreamState :=
  match enc with
  | Option.none => (.error (.missingDataSeriesEncoding ds), st)
  | Option.some e => e.decode st

/-- `Records::read_bam_flags`: BamFlags decoded then narrowed to `u16`. -/
def read_bam_flags (ch : CompressionHeader) (st : StreamState) :
    Except DecodeError Nat × StreamState :=
  dbind (decodeIntSeries ch.dataSeriesEncodings.bamFlags .bamFlags st) fun n st =>
    (u16TryFrom n, st)

/-- `Records::read_cram_flags`: CramFlags decoded then narrowed to `u8`. -/
def read_cram_flags (ch : CompressionHeader) (st : StreamState) :
    Except DecodeError Nat × StreamState :=
  dbind (decodeIntSeries ch.dataSeriesEncodings.cramFlags .cramFlags st) fun n st =>
    (u8TryFrom n, st)

/-- `Records::read_reference_sequence_id`: raw −1 means unmapped (no id). -/
def read_reference_sequence_id (ch : CompressionHeader) (st : StreamState) :
    Except DecodeError (Option Nat) × StreamState :=
  dbind
    (decodeIntSeries ch.dataSeriesEncodings.referenceSequenceIds
      .referenceSequenceIds st)
    fun n st =>
      if n = -1 then (.ok Option.none, st)
      else ((usizeTryFrom n).map Option.some, st)

/-- `Records::read_read_length`. -/
def read_read_length (ch : CompressionHeader) (st : StreamState) :
    Except DecodeError Nat × StreamState :=
  dbind (decodeIntSeries ch.dataSeriesEncodings.readLengths .readLengths st)
    fun n st => (usizeTryFrom n, st)

/-- `Records::read_alignment_start`: the raw AlignmentStarts value is a delta
against the previous start (0 when absent, narrowed to `i32`) when the
preservation map's flag is set, the absolute start otherwise; the result is
narrowed to `usize` and wrapped by `Position::new`.  The delta addition is
`i32` addition: if it overflows, a debug build panics and a release build
wraps to a negative sum that `usize::try_from` then rejects, so the decode
fails either way — `i32CheckedAdd` surfaces that as `invalidData`. -/
def read_alignment_start (ch : CompressionHeader) (prev : Option Nat)
    (st : StreamState) : Except DecodeError (Option Nat) × StreamState :=
  let alignment_starts_are_deltas := ch.preservationMap.alignmentStartsAreDeltas
  dbind
    (decodeIntSeries ch.dataSeriesEncodings.alignmentStarts .alignmentStarts st)
    fun alignment_start_or_delta st =>
      match
        (if alignment_starts_are_deltas then
          match i32TryFromNat (prev.getD 0) with
          | Except.error e => Except.error e
          | Except.ok p => i32CheckedAdd p alignment_start_or_delta
        else .ok alignment_start_or_delta) with
      | .error e => (.error e, st)
      | .ok alignment_start =>
        ((usizeTryFrom alignment_start).map Position.new, st)

/-- `Records::read_read_group_id`: raw −1 means no group. -/
def read_read_group_id (ch : CompressionHeader) (st : StreamState) :
    Except DecodeError (Option Nat) × StreamState :=
  dbind (decodeIntSeries ch.dataSeriesEncodings.readGroupIds .readGroupIds st)
    fun n st =>
      if n = -1 then (.ok Option.none, st)
      else ((usizeTryFrom n).map Option.some, st)

/-- `Records::read_positions`: reference id from the context (decoded only
under `Many`), then read length, alignment start, and read-group id. -/
def read_positions (ch : CompressionHeader) (ctx : ReferenceSequenceContext)
    (prev : Option Nat) (record : Record) (st : StreamState) :
    Except DecodeError Record × StreamState :=
  dbind
    (match ctx with
    | .some rid _ => (.ok (Option.some rid), st)
    | .none => (.ok Option.none, st)
    | .many => read_reference_sequence_id ch st)
    fun rsid st =>
      let record := { record with referenceSequenceId := rsid }
      dbind (read_read_length ch st) fun read_length st =>
        let record := { record with readLength := read_length }
        dbind (read_alignment_start ch prev st) fun start st =>
          let record := { record with alignmentStart := start }
          dbind (read_read_group_id ch st) fun rg st =>
            (.ok { record with readGroupId := rg }, st)

/-- `Records::read_name`: the decoded byte string `"*\x00"` (0x2A 0x00) is
the missing sentinel, normalized to an absent name. -/
def read_name (ch : CompressionHeader) (st : StreamState) :
    Except DecodeError (Option (List Nat)) × StreamState :=
  dbind (decodeByteArraySeries ch.dataSeriesEncodings.names .names st)
    fun buf st =>
      (.ok (if buf = [0x2a, 0x00] then Option.none else Option.some buf), st)

/-- `Records::read_names`: decoded here only when the preservation map says
records carry names. -/
def read_names (ch : CompressionHeader) (record : Record) (st : StreamState) :
    Except DecodeError Record × StreamState :=
  if ch.preservationMap.recordsHaveNames then
    dbind (read_name ch st) fun n st => (.ok { record with name := n }, st)
  else (.ok record, st)

/-- `Records::read_mate_flags`. -/
def read_mate_flags (ch : CompressionHeader) (st : StreamState) :
    Except DecodeError Nat × StreamState :=
  dbind (decodeIntSeries ch.dataSeriesEncodings.mateFlags .mateFlags st)
    fun n st => (u8TryFrom n, st)

/-- `Records::read_mate_reference_sequence_id`: raw −1 means unmapped. -/
def read_mate_reference_sequence_id (ch : CompressionHeader) (st : StreamState) :
    Except DecodeError (Option Nat) × StreamState :=
  dbind
    (decodeIntSeries ch.dataSeriesEncodings.mateReferenceSequenceIds
      .mateReferenceSequenceIds st)
    fun n st =>
      if n = -1 then (.ok Option.none, st)
      else ((usizeTryFrom n).map Option.some, st)

/-- `Records::read_mate_alignment_start`: narrowed to `usize`, 0 mapping to
an absent position. -/
def read_mate_alignment_start (ch : CompressionHeader) (st : StreamState) :
    Except DecodeError (Option Nat) × StreamState :=
  dbind
    (decodeIntSeries ch.dataSeriesEncodings.mateAlignmentStarts
      .mateAlignmentStarts st)
    fun n st => ((usizeTryFrom n).map Position.new, st)

/-- `Records::read_template_length`: the raw signed value. -/
def read_template_length (ch : CompressionHeader) (st : StreamState) :
    Except DecodeError Int × StreamState :=
  decodeIntSeries ch.dataSeriesEncodings.templateLengths .templateLengths st

/-- `Records::read_mate_distance`. -/
def read_mate_distance (ch : CompressionHeader) (st : StreamState) :
    Except DecodeError Nat × StreamState :=
  dbind (decodeIntSeries ch.dataSeriesEncodings.mateDistances .mateDistances st)
    fun n st => (usizeTryFrom n, st)

/-- `Records::read_mate`: a detached record carries mate flags (folded into
the BAM flags), a name when not already decoded, the mate reference id and
start, and the template length; a mate-downstream record carries one raw
mate distance. -/
def read_mate (ch : CompressionHeader) (record : Record) (st : StreamState) :
    Except DecodeError Record × StreamState :=
  if Flags.isDetached record.cramFlags then
    dbind (read_mate_flags ch st) fun mf st =>
      let record := { record with mateFlags := mf }
      let record :=
        if mateFlagsIsOnNegativeStrand mf then
          { record with bamFlags := record.bamFlags ||| 0x20 }
        else record
      let record :=
        if mateFlagsIsUnmapped mf then
          { record with bamFlags := record.bamFlags ||| 0x8 }
        else record
      dbind
        (if ch.preservationMap.recordsHaveNames then (.ok record, st)
        else
          dbind (read_name ch st) fun n st =>
            (.ok { record with name := n }, st))
        fun record st =>
          dbind (read_mate_reference_sequence_id ch st) fun mrid st =>
            let record := { record with mateReferenceSequenceId := mrid }
            dbind (read_mate_alignment_start ch st) fun mstart st =>
              let record := { record with mateAlignmentStart := mstart }
              dbind (read_template_length ch st) fun tl st =>
                (.ok { record with templateLength := tl }, st)
  else if Flags.mateIsDownstream record.cramFlags then
    dbind (read_mate_distance ch st) fun d st =>
      (.ok { record with mateDistance := Option.some d }, st)
  else (.ok record, st)

/-- `Records::read_tag_set_id`. -/
def read_tag_set_id (ch : CompressionHeader) (st : StreamState) :
    Except DecodeError Nat × StreamState :=
  dbind (decodeIntSeries ch.dataSeriesEncodings.tagSetIds .tagSetIds st)
    fun n st => (usizeTryFrom n, st)

/-- Look up the tag encoding registered under a derived content id. -/
def lookupTagEncoding (ch : CompressionHeader) (id : Int) : Option ByteArrayCodec :=
  match ch.tagEncodings.find? (fun p => p.1 == id) with
  | Option.some p => Option.some p.2
  | Option.none => Option.none

/-- The per-key loop of `Records::read_data`: decode each tag's bytes via the
encoding under its derived content id and append the interpreted value. -/
def read_data_tags (ch : CompressionHeader) :
    List TagKey → Record → StreamState → Except DecodeError Record × StreamState
  | [], record, st => (.ok record, st)
  | key :: rest, record, st =>
    match lookupTagEncoding ch key.contentId with
    | Option.none => (.error (.missingTagEncoding key), st)
    | Option.some enc =>
      dbind (enc.decode st) fun src st =>
        match read_value src key.ty with
        | .error e => (.error e, st)
        | .ok value =>
          read_data_tags ch rest
            { record with data := record.data ++ [((key.t1, key.t2), value)] } st

/-- `Records::read_data`: decode the tag-set id, look up its key list in the
preservation map, then decode each tag. -/
def read_data (ch : CompressionHeader) (record : Record) (st : StreamState) :
    Except DecodeError Record × StreamState :=
  dbind (read_tag_set_id ch st) fun tag_set_id st =>
    match ch.preservationMap.tagSets[tag_set_id]? with
    | Option.none => (.error .missingTagSet, st)
    | Option.some tag_set => read_data_tags ch tag_set record st

/-- `Records::read_feature_count`. -/
def read_feature_count (ch : CompressionHeader) (st : StreamState) :
    Except DecodeError Nat × StreamState :=
  dbind (decodeIntSeries ch.dataSeriesEncodings.featureCounts .featureCounts st)
    fun n st => (usizeTryFrom n, st)

/-- `Records::read_feature_code`. -/
def read_feature_code (ch : CompressionHeader) (st : StreamState) :
    Except DecodeError FeatureCode × StreamState :=
  dbind (decodeIntSeries ch.dataSeriesEncodings.featureCodes .featureCodes st)
    fun n st => (featureCodeOfInt n, st)

/-- `Records::read_feature_position_delta`. -/
def read_feature_position_delta (ch : CompressionHeader) (st : StreamState) :
    Except DecodeError Nat × StreamState :=
  dbind
    (decodeIntSeries ch.dataSeriesEncodings.featurePositionDeltas
      .featurePositionDeltas st)
    fun n st => (usizeTryFrom n, st)

/-- `Records::read_stretches_of_bases`. -/
def read_stretches_of_bases (ch : CompressionHeader) (st : StreamState) :
    Except DecodeError (List Nat) × StreamState :=
  decodeByteArraySeries ch.dataSeriesEncodings.stretchesOfBases
    .stretchesOfBases st

/-- `Records::read_stretches_of_quality_scores`. -/
def read_stretches_of_quality_scores (ch : CompressionHeader) (st : StreamState) :
    Except DecodeError (List Nat) × StreamState :=
  decodeByteArraySeries ch.dataSeriesEncodings.stretchesOfQualityScores
    .stretchesOfQualityScores st

/-- `Records::read_base`. -/
def read_base (ch : CompressionHeader) (st : StreamState) :
    Except DecodeError Nat × StreamState :=
  decodeByteSeries ch.dataSeriesEncodings.bases .bases st

/-- `Records::read_quality_score`. -/
def read_quality_score (ch : CompressionHeader) (st : StreamState) :
    Except DecodeError Nat × StreamState :=
  decodeByteSeries ch.dataSeriesEncodings.qualityScores .qualityScores st

/-- `Records::read_base_substitution_code`. -/
def read_base_substitution_code (ch : CompressionHeader) (st : StreamState) :
    Except DecodeError Nat × StreamState :=
  decodeByteSeries ch.dataSeriesEncodings.baseSubstitutionCodes
    .baseSubstitutionCodes st

/-- `Records::read_insertion_bases`. -/
def read_insertion_bases (ch : CompressionHeader) (st : StreamState) :
    Except DecodeError (List Nat) × StreamState :=
  decodeByteArraySeries ch.dataSeriesEncodings.insertionBases .insertionBases st

/-- `Records::read_deletion_length`. -/
def read_deletion_length (ch : CompressionHeader) (st : StreamState) :
    Except DecodeError Nat × StreamState :=
  dbind
    (decodeIntSeries ch.dataSeriesEncodings.deletionLengths .deletionLengths st)
    fun n st => (usizeTryFrom n, st)

/-- `Records::read_reference_skip_length`. -/
def read_reference_skip_length (ch : CompressionHeader) (st : StreamState) :
    Except DecodeError Nat × StreamState :=
  dbind
    (decodeIntSeries ch.dataSeriesEncodings.referenceSkipLengths
      .referenceSkipLengths st)
    fun n st => (usizeTryFrom n, st)

/-- `Records::read_soft_clip_bases`. -/
def read_soft_clip_bases (ch : CompressionHeader) (st : StreamState) :
    Except DecodeError (List Nat) × StreamState :=
  decodeByteArraySeries ch.dataSeriesEncodings.softClipBases .softClipBases st

/-- `Records::read_padding_length`. -/
def read_padding_length (ch : CompressionHeader) (st : StreamState) :
    Except DecodeError Nat × StreamState :=
  dbind
    (decodeIntSeries ch.dataSeriesEncodings.paddingLengths .paddingLengths st)
    fun n st => (usizeTryFrom n, st)

/-- `Records::read_hard_clip_length`. -/
def read_hard_clip_length (ch : CompressionHeader) (st : StreamState) :
    Except DecodeError Nat × StreamState :=
  dbind
    (decodeIntSeries ch.dataSeriesEncodings.hardClipLengths .hardClipLengths st)
    fun n st => (usizeTryFrom n, st)

/-- `Records::read_mapping_quality`: narrowed to `u8`, 255 mapping to
missing. -/
def read_mapping_quality (ch : CompressionHeader) (st : StreamState) :
    Except DecodeError (Option Nat) × StreamState :=
  dbind
    (decodeIntSeries ch.dataSeriesEncodings.mappingQualities
      .mappingQualities st)
    fun n st => ((u8TryFrom n).map MappingQuality.new, st)

/-- `Records::read_feature`: the feature code, then a position delta added to
the running previous position (`Position::try_from` failing at 0), then the
code's payload. -/
def read_feature (ch : CompressionHeader) (prev_position : Nat)
    (st : StreamState) : Except DecodeError Feature × StreamState :=
  dbind (read_feature_code ch st) fun code st =>
    dbind (read_feature_position_delta ch st) fun delta st =>
      match positionTryFrom (prev_position + delta) with
      | .error e => (.error e, st)
      | .ok position =>
        match code with
        | .bases =>
          dbind (read_stretches_of_bases ch st) fun bases st =>
            (.ok (.bases position bases), st)
        | .scores =>
          dbind (read_stretches_of_quality_scores ch st) fun quality_scores st =>
            (.ok (.scores position quality_scores), st)
        | .readBase =>
          dbind (read_base ch st) fun base st =>
            dbind (read_quality_score ch st) fun quality_score st =>
              (.ok (.readBase position base quality_score), st)
        | .substitution =>
          dbind (read_base_substitution_code ch st) fun c st =>
            (.ok (.substitution position c), st)
        | .insertion =>
          dbind (read_insertion_bases ch st) fun bases st =>
            (.ok (.insertion position bases), st)
        | .deletion =>
          dbind (read_deletion_length ch st) fun len st =>
            (.ok (.deletion position len), st)
        | .insertBase =>
          dbind (read_base ch st) fun base st =>
            (.ok (.insertBase position base), st)
        | .qualityScore =>
          dbind (read_quality_score ch st) fun quality_score st =>
            (.ok (.qualityScore position quality_score), st)
        | .referenceSkip =>
          dbind (read_reference_skip_length ch st) fun len st =>
            (.ok (.referenceSkip position len), st)
        | .softClip =>
          dbind (read_soft_clip_bases ch st) fun bases st =>
            (.ok (.softClip position bases), st)
        | .padding =>
          dbind (read_padding_length ch st) fun len st =>
            (.ok (.padding position len), st)
        | .hardClip =>
          dbind (read_hard_clip_length ch st) fun len st =>
            (.ok (.hardClip position len), st)

/-- The feature loop of `Records::read_mapped_read`: the running previous
position starts at 0 and is updated to each decoded feature's position. -/
def readFeaturesLoop (ch : CompressionHeader) :
    Nat → Nat → Record → StreamState → Except DecodeError Record × StreamState
  | 0, _, record, st => (.ok record, st)
  | n + 1, prev_position, record, st =>
    dbind (read_feature ch prev_position st) fun feature st =>
      readFeaturesLoop ch n feature.position
        { record with features := record.features ++ [feature] } st

/-- `Records::read_quality_scores`: a run of `read_length` quality bytes; a
buffer of all-0xFF sentinels normalizes to the empty buffer. -/
def read_quality_scores (ch : CompressionHeader) (read_length : Nat)
    (st : StreamState) : Except DecodeError (List Nat) × StreamState :=
  match ch.dataSeriesEncodings.qualityScores with
  | Option.none => (.error (.missingDataSeriesEncoding .qualityScores), st)
  | Option.some encoding =>
    dbind (encoding.decode_take st read_length) fun src st =>
      if src.all (fun n => n == 0xff) then (.ok [], st) else (.ok src, st)

/-- `Records::read_sequence`: a run of `read_length` base bytes. -/
def read_sequence (ch : CompressionHeader) (read_length : Nat)
    (st : StreamState) : Except DecodeError (List Nat) × StreamState :=
  match ch.dataSeriesEncodings.bases with
  | Option.none => (.error (.missingDataSeriesEncoding .bases), st)
  | Option.some encoding => encoding.decode_take st read_length

/-- `Records::read_mapped_read`: feature count, the feature loop, mapping
quality, and (under the quality-scores-as-array flag) the quality run. -/
def read_mapped_read (ch : CompressionHeader) (record : Record)
    (st : StreamState) : Except DecodeError Record × StreamState :=
  dbind (read_feature_count ch st) fun feature_count st =>
    dbind (readFeaturesLoop ch feature_count 0 record st) fun record st =>
      dbind (read_mapping_quality ch st) fun mq st =>
        let record := { record with mappingQuality := mq }
        if Flags.qualityScoresStoredAsArray record.cramFlags then
          dbind (read_quality_scores ch record.readLength st) fun qs st =>
            (.ok { record with qualityScores := qs }, st)
        else (.ok record, st)

/-- `Records::read_unmapped_read`: the sequence run and (under the
quality-scores-as-array flag) the quality run. -/
def read_unmapped_read (ch : CompressionHeader) (record : Record)
    (st : StreamState) : Except DecodeError Record × StreamState :=
  dbind (read_sequence ch record.readLength st) fun sequence st =>
    let record := { record with sequence := sequence }
    if Flags.qualityScoresStoredAsArray record.cramFlags then
      dbind (read_quality_scores ch record.readLength st) fun qs st =>
        (.ok { record with qualityScores := qs }, st)
    else (.ok record, st)

/-- The body of `Records::read_record` between the id assignment and the
final engine-state update: BAM and CRAM flags, positions, names, mate, tags,
then the mapped or unmapped tail on the BAM unmapped flag. -/
def readRecordBody (ch : CompressionHeader) (ctx : ReferenceSequenceContext)
    (prev : Option Nat) (record : Record) (st : StreamState) :
    Except DecodeError Record × StreamState :=
  dbind (read_bam_flags ch st) fun bam_flags st =>
    let record := { record with bamFlags := bam_flags }
    dbind (read_cram_flags ch st) fun cram_flags st =>
      let record := { record with cramFlags := cram_flags }
      dbind (read_positions ch ctx prev record st) fun record st =>
        dbind (read_names ch record st) fun record st =>
          dbind (read_mate ch record st) fun record st =>
            dbind (read_data ch record st) fun record st =>
              if bamFlagsIsUnmapped record.bamFlags then
                read_unmapped_read ch record st
              else
                read_mapped_read ch record st

/-- `Records::read_record`: the record takes the running id; on success the
id advances by one and the previous alignment start becomes this record's;
on failure both are left as they were. -/
def read_record (s : Records) (record : Record) :
    Except DecodeError Record × Records :=
  let record := { record with id := s.id }
  match
    readRecordBody s.compressionHeader s.referenceSequenceContext
      s.prevAlignmentStart record ⟨s.core, s.ext⟩ with
  | (.error e, st) => (.error e, { s with core := st.core, ext := st.ext })
  | (.ok record, st) =>
    (.ok record,
      { s with
        core := st.core
        ext := st.ext
        id := s.id + 1
        prevAlignmentStart := record.alignmentStart })

/-- The run of one-bits at the front of the core stream, consuming the
terminating zero-bit.  This definition follows the specification's §4.1
wording of the Gamma grammar ("a unary prefix of `n` one-bits terminated by
a zero-bit"), for comparison with the source-derived decoder. -/
def readOneRun : List Bool → Except DecodeError (Nat × List Bool)
  | [] => .error .unexpectedEof
  | b :: rest =>
    if b then (readOneRun rest).map fun p => (p.1 + 1, p.2)
    else .ok (0, rest)

/-- The Gamma decoder as the specification's §4.1 prose words it: a unary
prefix of `n` one-bits terminated by a zero-bit, then `n` bits as `m`, value
`(1 <<< n) + m - offset`.  Definition follows the spec's words, for
comparison with `Integer.decode`. -/
def gammaDecodeSpecWorded (offset : Int) (core : List Bool) :
    Except DecodeError (Int × List Bool) :=
  match readOneRun core with
  | .error e => .error e
  | .ok (n, c1) =>
    match read_i32 n c1 with
    | .error e => .error e
    | .ok (m, c2) => .ok ((((1 <<< n : Nat) : Int) + m) - offset, c2)

/-- Decode `n` successive records from fresh record buffers, collecting each
record's resolved alignment start. -/
def readRecordStarts : Nat → Records → Except DecodeError (List (Option Nat))
  | 0, _ => .ok []
  | n + 1, s =>
    match read_record s Record.default with
    | (.error e, _) => .error e
    | (.ok r, s2) => (readRecordStarts n s2).map fun rest => r.alignmentStart :: rest

/-- A compression header whose AlignmentStarts series is an external ITF8
stream and whose flag marks starts as deltas; every other series an engine
run touches is a singleton Huffman encoding (consuming nothing). -/
def c1Header : CompressionHeader :=
  { preservationMap :=
      { recordsHaveNames := false
        alignmentStartsAreDeltas := true
        tagSets := [[]] }
    dataSeriesEncodings :=
      { bamFlags := Option.some (.huffman [4] [0])
        cramFlags := Option.some (.huffman [0] [0])
        readLengths := Option.some (.huffman [0] [0])
        alignmentStarts := Option.some (.external 1)
        readGroupIds := Option.some (.huffman [-1] [0])
        tagSetIds := Option.some (.huffman [0] [0])
        bases := Option.some (.huffman [65] [0]) }
    tagEncodings := [] }

/-- An engine over `c1Header` whose external block 1 holds the ITF8 raw
delta sequence `[100, 5, -3]` (−3 in five-byte ITF8 form). -/
def c1Records : Records :=
  Records.new c1Header [] [(1, [100, 5, 0xff, 0xff, 0xff, 0xff, 0x0d])] .none 0

/-- As `c1Header`, with a raw AlignmentStarts value of 0 from a singleton
Huffman encoding: under the deltas flag and previous start 0 the resolved
start is 0. -/
def c2Header : CompressionHeader :=
  { preservationMap :=
      { recordsHaveNames := false
        alignmentStartsAreDeltas := true
        tagSets := [[]] }
    dataSeriesEncodings :=
      { bamFlags := Option.some (.huffman [4] [0])
        cramFlags := Option.some (.huffman [0] [0])
        readLengths := Option.some (.huffman [0] [0])
        alignmentStarts := Option.some (.huffman [0] [0])
        readGroupIds := Option.some (.huffman [-1] [0])
        tagSetIds := Option.some (.huffman [0] [0])
        bases := Option.some (.huffman [65] [0]) }
    tagEncodings := [] }

/-- An engine over `c2Header` with empty streams. -/
def c2Records : Records := Records.new c2Header [] [] .none 0

/-- As `c2Header`, with a raw AlignmentStarts value of −5: under the deltas
flag and previous start 0 the resolved start is −5. -/
def c2NegHeader : CompressionHeader :=
  { preservationMap :=
      { recordsHaveNames := false
        alignmentStartsAreDeltas := true
        tagSets := [[]] }
    dataSeriesEncodings :=
      { alignmentStarts := Option.some (.huffman [-5] [0]) }
    tagEncodings := [] }

/-- A compression header for a mapped record with feature count 1 whose
DataSeriesEncodings table lacks FeatureCodes. -/
def c3Header : CompressionHeader :=
  { preservationMap :=
      { recordsHaveNames := false
        alignmentStartsAreDeltas := false
        tagSets := [[]] }
    dataSeriesEncodings :=
      { bamFlags := Option.some (.huffman [0] [0])
        cramFlags := Option.some (.huffman [0] [0])
        readLengths := Option.some (.huffman [0] [0])
        alignmentStarts := Option.some (.huffman [100] [0])
        readGroupIds := Option.some (.huffman [-1] [0])
        tagSetIds := Option.some (.huffman [0] [0])
        featureCounts := Option.some (.huffman [1] [0]) }
    tagEncodings := [] }

/-- An engine over `c3Header` with empty streams and running id 7. -/
def c3Records : Records := Records.new c3Header [] [] .none 7

/-- A compression header for a mapped record with three deletion features
whose position deltas come from external block 3. -/
def c4Header : CompressionHeader :=
  { preservationMap :=
      { recordsHaveNames := false
        alignmentStartsAreDeltas := false
        tagSets := [[]] }
    dataSeriesEncodings :=
      { bamFlags := Option.some (.huffman [0] [0])
        cramFlags := Option.some (.huffman [0] [0])
        readLengths := Option.some (.huffman [0] [0])
        alignmentStarts := Option.some (.huffman [100] [0])
        readGroupIds := Option.some (.huffman [-1] [0])
        tagSetIds := Option.some (.huffman [0] [0])
        featureCounts := Option.some (.huffman [3] [0])
        featureCodes := Option.some (.huffman [68] [0])
        featurePositionDeltas := Option.some (.external 3)
        deletionLengths := Option.some (.huffman [1] [0])
        mappingQualities := Option.some (.huffman [10] [0]) }
    tagEncodings := [] }

/-- An engine over `c4Header` whose external block 3 holds the feature
position deltas `[3, 0, 7]`. -/
def c4Records : Records := Records.new c4Header [] [(3, [3, 0, 7])] .none 0

/-- A compression header whose QualityScores series reads raw bytes from
external block 9. -/
def c8Header : CompressionHeader :=
  { preservationMap :=
      { recordsHaveNames := false
        alignmentStartsAreDeltas := false
        tagSets := [[]] }
    dataSeriesEncodings := { qualityScores := Option.some (.external 9) }
    tagEncodings := [] }

/-- A compression header whose Names series is a length-prefixed byte array:
length 2 from a singleton Huffman encoding, bytes from external block 7. -/
def c10Header : CompressionHeader :=
  { preservationMap :=
      { recordsHaveNames := true
        alignmentStartsAreDeltas := false
        tagSets := [[]] }
    dataSeriesEncodings :=
      { names := Option.some (.byteArrayLen (.huffman [2] [0]) (.external 7)) }
    tagEncodings := [] }

/-- Sequencing a successful step. -/
theorem dbind_ok {σ α β : Type} (v : α) (s : σ)
    (f : α → σ → Except DecodeError β × σ) : dbind (.ok v, s) f = f v s := rfl

/-- Sequencing a failed step. -/
theorem dbind_error {σ α β : Type} (e : DecodeError) (s : σ)
    (f : α → σ → Except DecodeError β × σ) :
    dbind (.error e, s) f = (.error e, s) := rfl

/-- A successful sequence factors into a successful first step and a
successful continuation. -/
theorem dbind_ok_inv {σ α β : Type} {x : Except DecodeError α × σ}
    {f : α → σ → Except DecodeError β × σ} {b : β} {s2 : σ}
    (h : dbind x f = (.ok b, s2)) :
    ∃ a s1, x = (.ok a, s1) ∧ f a s1 = (.ok b, s2) := by
  rcases x with ⟨r, s⟩
  cases r with
  | ok v => exact ⟨v, s, rfl, h⟩
  | error e => simp [dbind, Prod.mk.injEq] at h

/-- Sequencing is associative. -/
theorem dbind_assoc {σ α β γ : Type} (x : Except DecodeError α × σ)
    (f : α → σ → Except DecodeError β × σ)
    (g : β → σ → Except DecodeError γ × σ) :
    dbind (dbind x f) g = dbind x fun a s => dbind (f a s) g := by
  rcases x with ⟨r, s⟩
  cases r <;> rfl

/-- `i32Wrap` is the identity on the `i32` range. -/
theorem i32Wrap_eq_self {n : Int} (h1 : -2147483648 ≤ n)
    (h2 : n < 2147483648) : i32Wrap n = n := by
  rw [i32Wrap]
  omega

/-- Below `1i32 << 31` the shifted base is exact. -/
theorem i32Shl1_small {n : Nat} (h : n ≤ 30) : i32Shl1 n = (2 : Int) ^ n := by
  rw [i32Shl1, Nat.mod_eq_of_lt (by omega)]
  have h1 : (0 : Int) ≤ 2 ^ n := by positivity
  have h2 : (2 : Int) ^ n ≤ 2 ^ 30 := pow_le_pow_right₀ (by norm_num) h
  exact i32Wrap_eq_self (by omega) (by omega)

/-- The accumulator of a successful bit read is bounded by the bit count. -/
theorem readBitsAcc_lt :
    ∀ (len acc : Nat) (core c : List Bool) (v : Nat),
      readBitsAcc len acc core = .ok (v, c) → v < (acc + 1) * 2 ^ len := by
  intro len
  induction len with
  | zero =>
    intro acc core c v h
    simp only [readBitsAcc, Except.ok.injEq, Prod.mk.injEq] at h
    obtain ⟨h1, -⟩ := h
    omega
  | succ k ih =>
    intro acc core c v h
    simp only [readBitsAcc] at h
    cases core with
    | nil => simp at h
    | cons b rest =>
      have hv := ih (2 * acc + (if b then 1 else 0)) rest c v h
      have hb : (if b then 1 else 0) ≤ 1 := by cases b <;> simp
      calc v < (2 * acc + (if b then 1 else 0) + 1) * 2 ^ k := hv
        _ ≤ (2 * acc + 2) * 2 ^ k := by
          have : 2 * acc + (if b then 1 else 0) + 1 ≤ 2 * acc + 2 := by omega
          exact Nat.mul_le_mul_right _ this
        _ = (acc + 1) * 2 ^ (k + 1) := by ring

/-- A value read by `read_i32` over at most 30 bits is exact and bounded by
`2 ^ len`. -/
theorem read_i32_small_range {len : Nat} {core c : List Bool} {m : Int}
    (h : read_i32 len core = .ok (m, c)) (hlen : len ≤ 30) :
    0 ≤ m ∧ m < (2 : Int) ^ len := by
  rw [read_i32] at h
  cases hr : readBitsAcc len 0 core with
  | error e => rw [hr] at h; simp [Except.map] at h
  | ok p =>
    obtain ⟨v, c2⟩ := p
    rw [hr] at h
    simp only [Except.map, Except.ok.injEq, Prod.mk.injEq] at h
    obtain ⟨h1, -⟩ := h
    have hv : v < 2 ^ len := by
      have := readBitsAcc_lt len 0 core c2 v hr
      simpa using this
    have hv32 : v < 2 ^ 32 := lt_of_lt_of_le hv
      (Nat.pow_le_pow_right (by omega) (by omega))
    have hv31 : v < 2 ^ 31 := lt_of_lt_of_le hv
      (Nat.pow_le_pow_right (by omega) (by omega))
    have hm : m = (v : Int) := by
      rw [← h1, i32OfNat, Nat.mod_eq_of_lt hv32]
      rw [if_pos (by exact_mod_cast hv31)]
    constructor
    · rw [hm]; positivity
    · rw [hm]
      calc ((v : Nat) : Int) < ((2 ^ len : Nat) : Int) := by exact_mod_cast hv
        _ = (2 : Int) ^ len := by push_cast; ring

/-- `read_alignment_start` under the deltas flag, with the `i32` sum in
range: the result is the `usize`-narrowed, `Position::new`-wrapped sum of
the previous start and the raw value. -/
theorem read_alignment_start_deltas_in_range_eq (ch : CompressionHeader)
    (prev : Option Nat) (st st2 : StreamState) (raw : Int)
    (hflag : ch.preservationMap.alignmentStartsAreDeltas = true)
    (hdec : decodeIntSeries ch.dataSeriesEncodings.alignmentStarts
      .alignmentStarts st = (.ok raw, st2))
    (hb : prev.getD 0 ≤ 2147483647)
    (hlow : -2147483648 ≤ ((prev.getD 0 : Nat) : Int) + raw)
    (hhigh : ((prev.getD 0 : Nat) : Int) + raw < 2147483648) :
    read_alignment_start ch prev st =
      ((usizeTryFrom (((prev.getD 0 : Nat) : Int) + raw)).map Position.new, st2) := by
  have hc :
      -2147483648 ≤ ((prev.getD 0 : Nat) : Int) + raw ∧
        ((prev.getD 0 : Nat) : Int) + raw < 2147483648 := ⟨hlow, hhigh⟩
  rw [read_alignment_start, hdec, dbind_ok, hflag]
  simp only [if_true, i32TryFromNat, if_pos hb, i32CheckedAdd, Except.map]
  rw [if_pos hc]

/-- `read_alignment_start` under the deltas flag, with the `i32` sum out of
range: the decode fails with `invalidData`. -/
theorem read_alignment_start_deltas_overflow_eq (ch : CompressionHeader)
    (prev : Option Nat) (st st2 : StreamState) (raw : Int)
    (hflag : ch.preservationMap.alignmentStartsAreDeltas = true)
    (hdec : decodeIntSeries ch.dataSeriesEncodings.alignmentStarts
      .alignmentStarts st = (.ok raw, st2))
    (hb : prev.getD 0 ≤ 2147483647)
    (hover : ¬(-2147483648 ≤ ((prev.getD 0 : Nat) : Int) + raw ∧
      ((prev.getD 0 : Nat) : Int) + raw < 2147483648)) :
    read_alignment_start ch prev st = (.error .invalidData, st2) := by
  rw [read_alignment_start, hdec, dbind_ok, hflag]
  simp only [if_true, i32TryFromNat, if_pos hb, i32CheckedAdd]
  rw [if_neg hover]

/-- `read_alignment_start` without the deltas flag: the raw value is the
absolute start. -/
theorem read_alignment_start_abs_eq (ch : CompressionHeader)
    (prev : Option Nat) (st st2 : StreamState) (raw : Int)
    (hflag : ch.preservationMap.alignmentStartsAreDeltas = false)
    (hdec : decodeIntSeries ch.dataSeriesEncodings.alignmentStarts
      .alignmentStarts st = (.ok raw, st2)) :
    read_alignment_start ch prev st =
      ((usizeTryFrom raw).map Position.new, st2) := by
  rw [read_alignment_start, hdec, dbind_ok, hflag]
  simp only [if_false, Bool.false_eq_true]

/-- C6: `Gamma{offset=5}` against a core stream starting `0b00011010`
decodes to 8, leaving the final bit of the byte unread. -/
theorem c6_gamma_offset5_vector :
    Integer.decode (.gamma 5) ⟨bitsOfByte 0b00011010, []⟩ =
      (.ok 8, ⟨[false], []⟩) := rfl

/-- C7: a singleton Huffman Integer encoding (bit length 0) decodes to its
symbol and returns the streams — in particular the core bit position —
unchanged, whatever they hold. -/
theorem c7_huffman_singleton_consumes_nothing :
    ∀ (s : Int) (st : StreamState),
      Integer.decode (.huffman [s] [0]) st = (.ok s, st) :=
  fun _ _ => rfl

/-- C9: the Golomb, GolombRice and Subexponential variants exist in the
codec type and their decode paths yield the explicit `notImplemented`
refusal (the `todo!` arms), never a value, for every parameter choice and
stream state. -/
theorem c9_unsupported_variants_refuse :
    ∀ (offset m k log2m : Int) (st : StreamState),
      Integer.decode (.golomb offset m) st = (.error .notImplemented, st) ∧
      Integer.decode (.subexp offset k) st = (.error .notImplemented, st) ∧
      Integer.decode (.golombRice offset log2m) st = (.error .notImplemented, st) :=
  fun _ _ _ _ _ => ⟨rfl, rfl, rfl⟩

/-- C5 counterexample: on the spec's own §8 vector (`Gamma{offset=5}`, core
byte `0b00011010`), the source decoder yields 8, while the claimed grammar —
a unary prefix of one-bits terminated by a zero-bit — yields −4: the
prefix the code consumes is a run of zero-bits terminated by a one-bit. -/
theorem c5_gamma_grammar_counterexample :
    (Integer.decode (.gamma 5) ⟨bitsOfByte 0b00011010, []⟩).1 = .ok 8 ∧
    gammaDecodeSpecWorded 5 (bitsOfByte 0b00011010) =
      .ok (-4, [false, false, true, true, false, true, false]) ∧
    (8 : Int) ≠ -4 := ⟨rfl, rfl, by decide⟩

/-- C5 (amended): the Gamma codec reads a unary prefix of `n` zero-bits
terminated by a one-bit, then `n` more bits as `m`, and returns
`(1 <<< n) + m − offset` computed in `i32` arithmetic; for `n ≤ 30` with the
result in `i32` range that value is exactly `2 ^ n + m − offset`, while at
`n = 31` the shifted base wraps to `−2^31`; a stream of exactly `n`
zero-bits then a one-bit has zero-run `n`. -/
theorem c5_gamma_zero_run_grammar :
    (∀ (offset : Int) (core c1 c2 : List Bool) (ext : ExternalDataReaders)
      (n : Nat) (m : Int),
      readZeroRun core = .ok (n, c1) →
      read_i32 n c1 = .ok (m, c2) →
      Integer.decode (.gamma offset) ⟨core, ext⟩ =
        (.ok (i32Wrap (i32Wrap (i32Shl1 n + m) - offset)), ⟨c2, ext⟩)) ∧
    (∀ (offset : Int) (core c1 c2 : List Bool) (ext : ExternalDataReaders)
      (n : Nat) (m : Int),
      readZeroRun core = .ok (n, c1) →
      read_i32 n c1 = .ok (m, c2) →
      n ≤ 30 →
      -2147483648 ≤ (2 : Int) ^ n + m - offset →
      (2 : Int) ^ n + m - offset < 2147483648 →
      Integer.decode (.gamma offset) ⟨core, ext⟩ =
        (.ok ((2 : Int) ^ n + m - offset), ⟨c2, ext⟩)) ∧
    i32Shl1 31 = -2147483648 ∧
    (∀ (n : Nat) (c1 : List Bool),
      readZeroRun (List.replicate n false ++ true :: c1) = .ok (n, c1)) := by
  have hgen :
      ∀ (offset : Int) (core c1 c2 : List Bool) (ext : ExternalDataReaders)
        (n : Nat) (m : Int),
        readZeroRun core = .ok (n, c1) →
        read_i32 n c1 = .ok (m, c2) →
        Integer.decode (.gamma offset) ⟨core, ext⟩ =
          (.ok (i32Wrap (i32Wrap (i32Shl1 n + m) - offset)), ⟨c2, ext⟩) := by
    intro offset core c1 c2 ext n m h1 h2
    simp only [Integer.decode, onCore, h1, h2]
  refine ⟨hgen, ?_, by decide, ?_⟩
  · intro offset core c1 c2 ext n m h1 h2 hn hlo hhi
    rw [hgen offset core c1 c2 ext n m h1 h2]
    obtain ⟨hm0, hmlt⟩ := read_i32_small_range h2 hn
    have hp : (2 : Int) ^ n ≤ 2 ^ 30 := pow_le_pow_right₀ (by norm_num) hn
    have hin : i32Wrap ((2 : Int) ^ n + m) = (2 : Int) ^ n + m :=
      i32Wrap_eq_self (by omega) (by omega)
    rw [i32Shl1_small hn, hin, i32Wrap_eq_self hlo hhi]
  · intro n
    induction n with
    | zero => intro c1; simp [readZeroRun]
    | succ k ih =>
      intro c1
      simp only [List.replicate_succ, List.cons_append, readZeroRun,
        Bool.false_eq_true, if_false, List.append_eq, ih c1, Except.map]

/-- C5 witness: the zero-run grammar applied at offset 5 to the core byte
`0b00011010` (zero-run 3, then bits 101, all within the wrap-free
region). -/
theorem c5_gamma_zero_run_grammar_witness :
    Integer.decode (.gamma 5) ⟨bitsOfByte 0b00011010, []⟩ =
      (.ok ((2 : Int) ^ 3 + 5 - 5), ⟨[false], []⟩) :=
  c5_gamma_zero_run_grammar.2.1 5 (bitsOfByte 0b00011010)
    [true, false, true, false] [false] [] 3 5 rfl rfl (by decide) (by decide)
    (by decide)

/-- C1: under the `alignment_starts_are_deltas` flag the resolved alignment
start is the previous start plus the raw AlignmentStarts value whenever the
`i32` sum is in range, and the decode fails with `invalidData` when the sum
overflows `i32::MAX` (without the flag the absolute raw value is used);
`read_record` threads each record's resolved start into the engine as the
next previous start; and from previous start 0, raw deltas `[100, 5, −3]`
resolve to absolute starts `[100, 105, 102]`. -/
theorem c1_alignment_start_delta_resolution :
    (∀ (ch : CompressionHeader) (prev : Option Nat) (st st2 : StreamState)
      (raw : Int),
      ch.preservationMap.alignmentStartsAreDeltas = true →
      decodeIntSeries ch.dataSeriesEncodings.alignmentStarts
        .alignmentStarts st = (.ok raw, st2) →
      prev.getD 0 ≤ 2147483647 →
      0 < ((prev.getD 0 : Nat) : Int) + raw →
      ((prev.getD 0 : Nat) : Int) + raw ≤ 2147483647 →
      read_alignment_start ch prev st =
        (.ok (Option.some ((((prev.getD 0 : Nat) : Int) + raw).toNat)), st2)) ∧
    (∀ (ch : CompressionHeader) (prev : Option Nat) (st st2 : StreamState)
      (raw : Int),
      ch.preservationMap.alignmentStartsAreDeltas = true →
      decodeIntSeries ch.dataSeriesEncodings.alignmentStarts
        .alignmentStarts st = (.ok raw, st2) →
      prev.getD 0 ≤ 2147483647 →
      2147483647 < ((prev.getD 0 : Nat) : Int) + raw →
      read_alignment_start ch prev st = (.error .invalidData, st2)) ∧
    (∀ (ch : CompressionHeader) (prev : Option Nat) (st st2 : StreamState)
      (raw : Int),
      ch.preservationMap.alignmentStartsAreDeltas = false →
      decodeIntSeries ch.dataSeriesEncodings.alignmentStarts
        .alignmentStarts st = (.ok raw, st2) →
      0 < raw →
      read_alignment_start ch prev st =
        (.ok (Option.some raw.toNat), st2)) ∧
    (∀ (s : Records) (rec rec2 : Record) (s2 : Records),
      read_record s rec = (.ok rec2, s2) →
      s2.prevAlignmentStart = rec2.alignmentStart) ∧
    readRecordStarts 3 c1Records =
      .ok [Option.some 100, Option.some 105, Option.some 102] := by
  refine ⟨?_, ?_, ?_, ?_, rfl⟩
  · intro ch prev st st2 raw hflag hdec hb hpos hmax
    rw [read_alignment_start_deltas_in_range_eq ch prev st st2 raw hflag hdec
      hb (by omega) (by omega)]
    have h0 : (0 : Int) ≤ ((prev.getD 0 : Nat) : Int) + raw := le_of_lt hpos
    have h1 : ¬(((prev.getD 0 : Nat) : Int) + raw).toNat = 0 := by omega
    simp only [usizeTryFrom, if_pos h0, Except.map, Position.new, if_neg h1]
  · intro ch prev st st2 raw hflag hdec hb hover
    exact read_alignment_start_deltas_overflow_eq ch prev st st2 raw hflag
      hdec hb (by omega)
  · intro ch prev st st2 raw hflag hdec hpos
    rw [read_alignment_start_abs_eq ch prev st st2 raw hflag hdec]
    have h0 : (0 : Int) ≤ raw := le_of_lt hpos
    have h1 : ¬raw.toNat = 0 := by omega
    simp only [usizeTryFrom, if_pos h0, Except.map, Position.new, if_neg h1]
  · intro s rec rec2 s2 h
    rw [read_record] at h
    rcases hb :
      readRecordBody s.compressionHeader s.referenceSequenceContext
        s.prevAlignmentStart { rec with id := s.id } ⟨s.core, s.ext⟩ with ⟨r, st⟩
    rw [hb] at h
    cases r with
    | error e => simp at h
    | ok rec3 =>
      simp only [Prod.mk.injEq, Except.ok.injEq] at h
      obtain ⟨h1, h2⟩ := h
      subst h1
      rw [← h2]

/-- C1 witness: the delta resolution applied at previous start 0 (absent)
and raw value 100 from the ITF8 block of `c1Records`, the sum in `i32`
range. -/
theorem c1_alignment_start_delta_resolution_witness :
    read_alignment_start c1Header Option.none
        ⟨[], [(1, [100, 5, 0xff, 0xff, 0xff, 0xff, 0x0d])]⟩ =
      (.ok (Option.some ((((Option.none.getD 0 : Nat) : Int) + 100).toNat)),
        ⟨[], [(1, [5, 0xff, 0xff, 0xff, 0xff, 0x0d])]⟩) :=
  c1_alignment_start_delta_resolution.1 c1Header Option.none
    ⟨[], [(1, [100, 5, 0xff, 0xff, 0xff, 0xff, 0x0d])]⟩
    ⟨[], [(1, [5, 0xff, 0xff, 0xff, 0xff, 0x0d])]⟩ 100 rfl rfl
    (by decide) (by decide) (by decide)

/-- C2 counterexample: with the deltas flag set, previous start 0 and raw
value 0, the resolved alignment start is 0 — which is not positive — yet
`read_record` succeeds, storing an absent alignment start, rather than
returning a decode error. -/
theorem c2_zero_resolved_start_counterexample :
    c2Records.compressionHeader.preservationMap.alignmentStartsAreDeltas = true ∧
    c2Records.prevAlignmentStart = Option.none ∧
    decodeIntSeries c2Records.compressionHeader.dataSeriesEncodings.alignmentStarts
        .alignmentStarts ⟨[], []⟩ = (.ok 0, ⟨[], []⟩) ∧
    read_record c2Records Record.default =
      (.ok { Record.default with bamFlags := 4 },
        { c2Records with id := 1, prevAlignmentStart := Option.none }) :=
  ⟨rfl, rfl, rfl, rfl⟩

/-- C2 (amended): under the deltas flag, a negative resolved alignment
start is an `InvalidData` decode error, while a resolved start of exactly 0
decodes without error to an absent (`none`) alignment start. -/
theorem c2_negative_resolved_start_is_error :
    ∀ (ch : CompressionHeader) (prev : Option Nat) (st st2 : StreamState)
      (raw : Int),
      ch.preservationMap.alignmentStartsAreDeltas = true →
      decodeIntSeries ch.dataSeriesEncodings.alignmentStarts
        .alignmentStarts st = (.ok raw, st2) →
      prev.getD 0 ≤ 2147483647 →
      (((prev.getD 0 : Nat) : Int) + raw < 0 →
        read_alignment_start ch prev st = (.error .invalidData, st2)) ∧
      (((prev.getD 0 : Nat) : Int) + raw = 0 →
        read_alignment_start ch prev st = (.ok Option.none, st2)) := by
  intro ch prev st st2 raw hflag hdec hb
  constructor
  · intro hneg
    rcases le_or_lt (-2147483648 : Int) (((prev.getD 0 : Nat) : Int) + raw)
      with hlow | hlow
    · rw [read_alignment_start_deltas_in_range_eq ch prev st st2 raw hflag
        hdec hb hlow (by omega)]
      have h0 : ¬(0 : Int) ≤ ((prev.getD 0 : Nat) : Int) + raw := by omega
      simp only [usizeTryFrom, if_neg h0, Except.map]
    · exact read_alignment_start_deltas_overflow_eq ch prev st st2 raw hflag
        hdec hb (by omega)
  · intro hzero
    rw [read_alignment_start_deltas_in_range_eq ch prev st st2 raw hflag hdec
      hb (by omega) (by omega)]
    rw [hzero]
    simp [usizeTryFrom, Position.new, Except.map]

/-- C2 witness: raw value −5 against previous start 0 resolves to −5 and
fails with `InvalidData`. -/
theorem c2_negative_resolved_start_is_error_witness :
    read_alignment_start c2NegHeader Option.none ⟨[], []⟩ =
      (.error .invalidData, ⟨[], []⟩) :=
  (c2_negative_resolved_start_is_error c2NegHeader Option.none
    ⟨[], []⟩ ⟨[], []⟩ (-5) rfl rfl (by decide)).1 (by decide)

/-- C3: a failed `read_record` leaves the running id (and the previous
alignment start) unchanged; a successful one advances the id by exactly 1;
and a mapped record against a table lacking FeatureCodes fails with
`MissingDataSeriesEncoding(FeatureCodes)`, the engine state unchanged. -/
theorem c3_missing_encoding_error_id_unchanged :
    (∀ (s : Records) (rec : Record) (e : DecodeError) (s2 : Records),
      read_record s rec = (.error e, s2) →
      s2.id = s.id ∧ s2.prevAlignmentStart = s.prevAlignmentStart) ∧
    (∀ (s : Records) (rec rec2 : Record) (s2 : Records),
      read_record s rec = (.ok rec2, s2) → s2.id = s.id + 1) ∧
    c3Records.compressionHeader.dataSeriesEncodings.featureCodes = Option.none ∧
    read_record c3Records Record.default =
      (.error (.missingDataSeriesEncoding .featureCodes), c3Records) := by
  refine ⟨?_, ?_, rfl, rfl⟩
  · intro s rec e s2 h
    rw [read_record] at h
    rcases hb :
      readRecordBody s.compressionHeader s.referenceSequenceContext
        s.prevAlignmentStart { rec with id := s.id } ⟨s.core, s.ext⟩ with ⟨r, st⟩
    rw [hb] at h
    cases r with
    | error e2 =>
      simp only [Prod.mk.injEq, Except.error.injEq] at h
      obtain ⟨-, h2⟩ := h
      rw [← h2]
      exact ⟨rfl, rfl⟩
    | ok rec3 => simp at h
  · intro s rec rec2 s2 h
    rw [read_record] at h
    rcases hb :
      readRecordBody s.compressionHeader s.referenceSequenceContext
        s.prevAlignmentStart { rec with id := s.id } ⟨s.core, s.ext⟩ with ⟨r, st⟩
    rw [hb] at h
    cases r with
    | error e2 => simp at h
    | ok rec3 =>
      simp only [Prod.mk.injEq, Except.ok.injEq] at h
      obtain ⟨-, h2⟩ := h
      rw [← h2]

/-- C3 witness: the failed decode against `c3Records` leaves its id (7) and
previous alignment start unchanged. -/
theorem c3_missing_encoding_error_id_unchanged_witness :
    (read_record c3Records Record.default).2.id = c3Records.id ∧
    (read_record c3Records Record.default).2.prevAlignmentStart =
      c3Records.prevAlignmentStart :=
  c3_missing_encoding_error_id_unchanged.1 c3Records Record.default
    (.missingDataSeriesEncoding .featureCodes) c3Records rfl

/-- C4 counterexample: feature position deltas `[3, 0, 7]` (external block
3 of `c4Records`) decode to feature positions `[3, 3, 10]` — the first
position is the first delta itself, not delta + 1 — so the claimed
`[4, 4, 11]` is wrong. -/
theorem c4_feature_positions_counterexample :
    extGet 3 c4Records.ext = Option.some [3, 0, 7] ∧
    (read_record c4Records Record.default).1 =
      .ok
        { Record.default with
          alignmentStart := Option.some 100
          features := [.deletion 3 1, .deletion 3 1, .deletion 10 1]
          mappingQuality := Option.some 10 } ∧
    ([Feature.deletion 3 1, .deletion 3 1, .deletion 10 1].map Feature.position
      = [3, 3, 10]) ∧
    ([3, 3, 10] : List Nat) ≠ [4, 4, 11] :=
  ⟨rfl, rfl, rfl, by decide⟩

/-- C4 (amended): a decoded feature's position is the running previous
position plus its decoded delta; the feature loop threads each feature's
position as the next previous position (starting from 0); and deltas
`[3, 0, 7]` yield absolute positions `[3, 3, 10]`. -/
theorem c4_feature_position_accumulation :
    (∀ (ch : CompressionHeader) (prev_position : Nat) (st st4 : StreamState)
      (f : Feature),
      read_feature ch prev_position st = (.ok f, st4) →
      ∃ (code : FeatureCode) (stB : StreamState) (delta : Nat) (stC : StreamState),
        read_feature_code ch st = (.ok code, stB) ∧
        read_feature_position_delta ch stB = (.ok delta, stC) ∧
        f.position = prev_position + delta) ∧
    (∀ (ch : CompressionHeader) (n prev_position : Nat) (record : Record)
      (st : StreamState),
      readFeaturesLoop ch (n + 1) prev_position record st =
        dbind (read_feature ch prev_position st) fun feature st =>
          readFeaturesLoop ch n feature.position
            { record with features := record.features ++ [feature] } st) ∧
    ((read_record c4Records Record.default).1).map
        (fun r => r.features.map Feature.position) = .ok [3, 3, 10] := by
  refine ⟨?_, fun ch n p record st => rfl, rfl⟩
  intro ch prev_position st st4 f h
  rw [read_feature] at h
  obtain ⟨code, stB, hc, h⟩ := dbind_ok_inv h
  obtain ⟨delta, stC, hd, h⟩ := dbind_ok_inv h
  refine ⟨code, stB, delta, stC, hc, hd, ?_⟩
  cases hp : positionTryFrom (prev_position + delta) with
  | error e => rw [hp] at h; simp at h
  | ok pos =>
    rw [hp] at h
    have hpos : prev_position + delta = pos := by
      rw [positionTryFrom] at hp
      split at hp
      · simp at hp
      · exact (Except.ok.injEq _ _ ▸ hp :)
    cases code <;>
      (repeat obtain ⟨_, _, -, h⟩ := dbind_ok_inv h) <;>
      simp only [Prod.mk.injEq, Except.ok.injEq] at h <;>
      (obtain ⟨h1, -⟩ := h) <;>
      rw [← h1] <;>
      simp only [Feature.position] <;>
      omega

/-- C4 witness: the position law applied to the first feature of
`c4Records` (previous position 0, delta 3). -/
theorem c4_feature_position_accumulation_witness :
    ∃ (code : FeatureCode) (stB : StreamState) (delta : Nat) (stC : StreamState),
      read_feature_code c4Header ⟨[], [(3, [3, 0, 7])]⟩ = (.ok code, stB) ∧
      read_feature_position_delta c4Header stB = (.ok delta, stC) ∧
      (Feature.deletion 3 1).position = 0 + delta :=
  c4_feature_position_accumulation.1 c4Header 0 ⟨[], [(3, [3, 0, 7])]⟩
    ⟨[], [(3, [0, 7])]⟩ (Feature.deletion 3 1) rfl

/-- A successful `takeBytes` returns exactly the requested count. -/
theorem takeBytes_ok_length {n : Nat} {src v rest : List Nat}
    (h : takeBytes n src = .ok (v, rest)) : v.length = n := by
  rw [takeBytes] at h
  split at h
  · next hle =>
    simp only [Except.ok.injEq, Prod.mk.injEq] at h
    obtain ⟨h1, -⟩ := h
    rw [← h1]
    simp [List.length_take, Nat.min_eq_left hle]
  · simp at h

/-- A successful `decodeRepeat` returns exactly the requested count. -/
theorem decodeRepeat_length (c : ByteCodec) :
    ∀ (n : Nat) (st st2 : StreamState) (bs : List Nat),
      ByteCodec.decodeRepeat c n st = (.ok bs, st2) → bs.length = n := by
  intro n
  induction n with
  | zero =>
    intro st st2 bs h
    rw [ByteCodec.decodeRepeat] at h
    simp only [Prod.mk.injEq, Except.ok.injEq] at h
    obtain ⟨h1, -⟩ := h
    rw [← h1]
    rfl
  | succ k ih =>
    intro st st2 bs h
    rw [ByteCodec.decodeRepeat] at h
    obtain ⟨b, s1, -, h⟩ := dbind_ok_inv h
    obtain ⟨bs2, s2x, hrec, h⟩ := dbind_ok_inv h
    simp only [Prod.mk.injEq, Except.ok.injEq] at h
    obtain ⟨h1, -⟩ := h
    rw [← h1]
    simp [ih s1 s2x bs2 hrec]

/-- A successful `decode_take` returns exactly the requested count. -/
theorem decode_take_length (c : ByteCodec) (st st2 : StreamState) (len : Nat)
    (buf : List Nat) (h : c.decode_take st len = (.ok buf, st2)) :
    buf.length = len := by
  cases c with
  | external id =>
    rw [ByteCodec.decode_take, onExt] at h
    split at h
    · simp at h
    · split at h
      · next v rest ht =>
        simp only [Prod.mk.injEq, Except.ok.injEq] at h
        obtain ⟨h1, -⟩ := h
        rw [← h1]
        exact takeBytes_ok_length ht
      · simp at h
  | huffman a b => exact decodeRepeat_length _ len st st2 buf h

/-- C8: a quality run of `read_length` bytes decodes to exactly that many
bytes; an all-0xFF buffer normalizes to the empty (absent) buffer, while a
buffer with any non-0xFF byte is stored verbatim. -/
theorem c8_quality_scores_sentinel_normalization :
    ∀ (ch : CompressionHeader) (read_length : Nat) (st st2 : StreamState)
      (enc : ByteCodec) (buf : List Nat),
      ch.dataSeriesEncodings.qualityScores = Option.some enc →
      enc.decode_take st read_length = (.ok buf, st2) →
      buf.length = read_length ∧
      (buf.all (fun n => n == 0xff) = true →
        read_quality_scores ch read_length st = (.ok [], st2)) ∧
      (buf.all (fun n => n == 0xff) = false →
        read_quality_scores ch read_length st = (.ok buf, st2)) := by
  intro ch read_length st st2 enc buf henc hdec
  refine ⟨decode_take_length enc st st2 read_length buf hdec, ?_, ?_⟩
  · intro hall
    rw [read_quality_scores, henc]
    simp only [hdec, dbind_ok, hall, if_true]
  · intro hall
    rw [read_quality_scores, henc]
    simp only [hdec, dbind_ok, hall, Bool.false_eq_true, if_false]

/-- C8 witness: three 0xFF bytes from external block 9 normalize to an
empty quality buffer. -/
theorem c8_quality_scores_sentinel_normalization_witness :
    ([255, 255, 255] : List Nat).length = 3 ∧
    (List.all [255, 255, 255] (fun n => n == 0xff) = true →
      read_quality_scores c8Header 3 ⟨[], [(9, [255, 255, 255])]⟩ =
        (.ok [], ⟨[], [(9, [])]⟩)) ∧
    (List.all [255, 255, 255] (fun n => n == 0xff) = false →
      read_quality_scores c8Header 3 ⟨[], [(9, [255, 255, 255])]⟩ =
        (.ok [255, 255, 255], ⟨[], [(9, [])]⟩)) :=
  c8_quality_scores_sentinel_normalization c8Header 3
    ⟨[], [(9, [255, 255, 255])]⟩ ⟨[], [(9, [])]⟩ (.external 9)
    [255, 255, 255] rfl rfl

/-- C10: a name decoded from the Names series equal to the two bytes
`*` NUL (0x2A 0x00) normalizes to an absent name, any other byte string is
stored verbatim; `read_names` routes through this decode when the
preservation map says records carry names, and `read_mate` does for a
detached record whose name was not yet decoded. -/
theorem c10_name_sentinel_normalization :
    ∀ (ch : CompressionHeader) (st st2 : StreamState) (enc : ByteArrayCodec)
      (buf : List Nat),
      ch.dataSeriesEncodings.names = Option.some enc →
      enc.decode st = (.ok buf, st2) →
      (buf = [0x2a, 0x00] → read_name ch st = (.ok Option.none, st2)) ∧
      (buf ≠ [0x2a, 0x00] → read_name ch st = (.ok (Option.some buf), st2)) ∧
      (ch.preservationMap.recordsHaveNames = true →
        ∀ record : Record,
          read_names ch record st =
            dbind (read_name ch st) fun n st =>
              (.ok { record with name := n }, st)) ∧
      (∀ (record : Record) (mf : Nat) (stB : StreamState),
        Flags.isDetached record.cramFlags = true →
        ch.preservationMap.recordsHaveNames = false →
        read_mate_flags ch st = (.ok mf, stB) →
        ∃ k, read_mate ch record st = dbind (read_name ch stB) k) := by
  intro ch st st2 enc buf henc hdec
  have hser :
      decodeByteArraySeries ch.dataSeriesEncodings.names .names st =
        (.ok buf, st2) := by
    rw [henc]
    exact hdec
  refine ⟨?_, ?_, ?_, ?_⟩
  · intro hbuf
    rw [read_name, hser, dbind_ok, if_pos hbuf]
  · intro hbuf
    rw [read_name, hser, dbind_ok, if_neg hbuf]
  · intro hnames record
    rw [read_names, if_pos hnames]
  · intro record mf stB hdet hnames hmf
    rw [read_mate, if_pos hdet, hmf, dbind_ok]
    simp only [hnames, Bool.false_eq_true, if_false]
    exact ⟨_, dbind_assoc _ _ _⟩

/-- C10 witness: the byte string 0x2A 0x00 decoded by the Names series of
`c10Header` yields an absent name. -/
theorem c10_name_sentinel_normalization_witness :
    read_name c10Header ⟨[], [(7, [0x2a, 0x00])]⟩ =
      (.ok Option.none, ⟨[], [(7, [])]⟩) :=
  (c10_name_sentinel_normalization c10Header ⟨[], [(7, [0x2a, 0x00])]⟩
    ⟨[], [(7, [])]⟩ (.byteArrayLen (.huffman [2] [0]) (.external 7))
    [0x2a, 0x00] rfl rfl).1 rfl

end NoodlesCram
